import Mathlib

/-!
Shallow embedding of the `rsix` OS-interface library, covering:
- the path-argument conversion layer (`src/path/arg.rs`),
- the `/proc` trust-chain validation (`src/io/procfs.rs`),
- the 32-bit time64 fallback and `accessat` dispatch in the raw-syscall
  backend (`src/imp/linux_raw/syscalls.rs`),
- Unix socket addresses and IP address value types (`src/imp/libc/net/addr.rs`),
- the timerfd scenario preserved by `tests/time/timerfd.rs`.

Byte strings are modelled as `List Nat` (each element a `u8` value); a `CStr`
is represented by its byte content without the trailing NUL terminator.
Fallible operations (`io::Result<T>`) become `Except Errno T`.
-/

/-- Typed error codes mirroring the library's `io::Error` enumeration
(`errno` values). `other` stands for any kernel errno not named here;
distinct constructors denote distinct errno values. -/
inductive Errno where
  | INVAL
  | NOSYS
  | NAMETOOLONG
  | NOTSUP
  | XDEV
  | BUSY
  | INTR
  | other (code : Nat)
deriving DecidableEq, Repr

/-- The library's `io::Result<T>`. -/
abbrev IoResult (T : Type) := Except Errno T

/-- `CString::new(bytes)` composed with the call sites' uniform
`.map_err(|_cstr_err| io::Error::INVAL)`: fails with `INVAL` exactly when
`bytes` contains a NUL byte, otherwise yields the NUL-free byte content. -/
def cstring_new (bytes : List Nat) : IoResult (List Nat) :=
  if 0 ∈ bytes then .error .INVAL else .ok bytes

/-- `CStr::from_bytes_with_nul(bytes)` composed with the call site's
`.map_err(|_cstr_err| io::Error::INVAL)`: requires the final byte to be NUL
and no interior NUL; yields the content without the terminator. -/
def cstr_from_bytes_with_nul (bytes : List Nat) : IoResult (List Nat) :=
  match bytes.getLast? with
  | some 0 => if 0 ∈ bytes.dropLast then .error .INVAL else .ok bytes.dropLast
  | _ => .error .INVAL

/-- The inline stack buffer threshold `SIZE` in `with_c_str`
(`src/path/arg.rs`). -/
def with_c_str_SIZE : Nat := 256

/-- `with_c_str_slow_path` (`src/path/arg.rs`): heap-allocates via
`CString::new` and runs the continuation on the result. -/
def with_c_str_slow_path {T : Type} (bytes : List Nat)
    (f : List Nat → IoResult T) : IoResult T :=
  match cstring_new bytes with
  | .error e => .error e
  | .ok c => f c

/-- `with_c_str` (`src/path/arg.rs`): for `bytes.len() >= SIZE` defers to the
slow path; otherwise copies `bytes` into a zeroed `SIZE`-byte stack buffer and
runs the continuation on `CStr::from_bytes_with_nul(&buffer[..=bytes.len()])`.
The slice `buffer[..=bytes.len()]` is `(bytes ++ zeros).take (bytes.length + 1)`. -/
def with_c_str {T : Type} (bytes : List Nat)
    (f : List Nat → IoResult T) : IoResult T :=
  if bytes.length ≥ with_c_str_SIZE then
    with_c_str_slow_path bytes f
  else
    match cstr_from_bytes_with_nul
        ((bytes ++ List.replicate (with_c_str_SIZE - bytes.length) 0).take
          (bytes.length + 1)) with
    | .error e => .error e
    | .ok c => f c

/-- `<&str as Arg>::into_c_str`: `CString::new(self)`. -/
def str_into_c_str (s : List Nat) : IoResult (List Nat) :=
  cstring_new s

/-- `<String as Arg>::into_c_str`: `CString::new(self)`. -/
def string_into_c_str (s : List Nat) : IoResult (List Nat) :=
  cstring_new s

/-- `<&[u8] as Arg>::into_c_str`: `CString::new(self)`. -/
def u8_slice_into_c_str (b : List Nat) : IoResult (List Nat) :=
  cstring_new b

/-- `<Vec<u8> as Arg>::into_c_str`: `CString::new(self)`. -/
def vec_u8_into_c_str (b : List Nat) : IoResult (List Nat) :=
  cstring_new b

/-- `<&CStr as Arg>::into_c_str`: `Ok(Cow::Borrowed(self))`; the argument is
the byte content of an existing `CStr` (hence NUL-free by construction). -/
def c_str_into_c_str (c : List Nat) : IoResult (List Nat) :=
  .ok c

/-- `<CString as Arg>::into_c_str`: `Ok(Cow::Owned(self))`. -/
def c_string_into_c_str (c : List Nat) : IoResult (List Nat) :=
  .ok c

/-- `<&OsStr as Arg>::into_c_str`: `CString::new(self.as_bytes())`. -/
def os_str_into_c_str (s : List Nat) : IoResult (List Nat) :=
  cstring_new s

/-- `<OsString as Arg>::into_c_str`: `CString::new(self.into_vec())`. -/
def os_string_into_c_str (s : List Nat) : IoResult (List Nat) :=
  cstring_new s

/-- `<&Path as Arg>::into_c_str`: `CString::new(self.as_os_str().as_bytes())`. -/
def path_into_c_str (p : List Nat) : IoResult (List Nat) :=
  cstring_new p

/-- `<PathBuf as Arg>::into_c_str`:
`CString::new(self.into_os_string().into_vec())`. -/
def path_buf_into_c_str (p : List Nat) : IoResult (List Nat) :=
  cstring_new p

/-- `<Cow<str> as Arg>::into_c_str`: both the `Owned` and `Borrowed` arms call
`CString::new` on the same character data; `borrowed` records which arm. -/
def cow_str_into_c_str (borrowed : Bool) (s : List Nat) : IoResult (List Nat) :=
  match borrowed with
  | true => cstring_new s
  | false => cstring_new s

/-- `<Cow<OsStr> as Arg>::into_c_str`: both arms call `CString::new` on the
same bytes (`os.into_vec()` or `os.as_bytes()`). -/
def cow_os_str_into_c_str (borrowed : Bool) (s : List Nat) : IoResult (List Nat) :=
  match borrowed with
  | true => cstring_new s
  | false => cstring_new s

/-- `<Cow<CStr> as Arg>::into_c_str`: returns the existing C string unchanged. -/
def cow_c_str_into_c_str (c : List Nat) : IoResult (List Nat) :=
  .ok c

/-- `<&str as Arg>::as_cow_c_str`: `CString::new(self.as_bytes())`. -/
def str_as_cow_c_str (s : List Nat) : IoResult (List Nat) :=
  cstring_new s

/-- `<&[u8] as Arg>::as_cow_c_str`: `CString::new(*self)`. -/
def u8_slice_as_cow_c_str (b : List Nat) : IoResult (List Nat) :=
  cstring_new b

/-- `<&str as Arg>::into_with_c_str`: `with_c_str(self.as_bytes(), f)`. -/
def str_into_with_c_str {T : Type} (s : List Nat)
    (f : List Nat → IoResult T) : IoResult T :=
  with_c_str s f

/-- `<&[u8] as Arg>::into_with_c_str`: `with_c_str(self, f)`. -/
def u8_slice_into_with_c_str {T : Type} (b : List Nat)
    (f : List Nat → IoResult T) : IoResult T :=
  with_c_str b f

theorem take_append_replicate (p : List Nat) (k : Nat) (hk : 1 ≤ k) :
    (p ++ List.replicate k 0).take (p.length + 1) = p ++ [0] := by
  obtain ⟨k, rfl⟩ := Nat.exists_eq_add_of_le hk
  induction p with
  | nil => simp [List.replicate_add]
  | cons a p ih =>
      simpa [List.take_succ_cons] using ih

theorem cstr_from_bytes_with_nul_concat (p : List Nat) :
    cstr_from_bytes_with_nul (p ++ [0]) =
      if 0 ∈ p then .error .INVAL else .ok p := by
  simp [cstr_from_bytes_with_nul, List.getLast?_concat, List.dropLast_concat]

/-- Characterization of the slow path: `INVAL` on any NUL, otherwise the
continuation is run on exactly the input bytes. -/
theorem with_c_str_slow_path_spec {T : Type} (bytes : List Nat)
    (f : List Nat → IoResult T) :
    with_c_str_slow_path bytes f =
      if 0 ∈ bytes then .error .INVAL else f bytes := by
  unfold with_c_str_slow_path cstring_new
  by_cases h : 0 ∈ bytes <;> simp [h]

/-- Characterization of `with_c_str`: both the fast and the slow path give
`INVAL` on any NUL and otherwise run the continuation on exactly the input
bytes. -/
theorem with_c_str_spec {T : Type} (bytes : List Nat)
    (f : List Nat → IoResult T) :
    with_c_str bytes f =
      if 0 ∈ bytes then .error .INVAL else f bytes := by
  unfold with_c_str
  split
  · exact with_c_str_slow_path_spec bytes f
  · rename_i hlen
    have hk : 1 ≤ with_c_str_SIZE - bytes.length := by
      unfold with_c_str_SIZE at *
      omega
    rw [take_append_replicate bytes _ hk, cstr_from_bytes_with_nul_concat]
    by_cases h : 0 ∈ bytes <;> simp [h]

/-- C1: for every input byte string containing a NUL byte (necessarily
interior, since these representations carry no terminator), the conversion
layer — `into_c_str`, `as_cow_c_str`, `into_with_c_str`, and the internal
`with_c_str` helper — returns `INVAL`. The continuation `f` is universally
quantified and the result is `error INVAL` regardless of `f`, so the
continuation's result never surfaces: no kernel call is performed. -/
theorem C1_interior_nul_yields_inval {T : Type} (p : List Nat)
    (f : List Nat → IoResult T) (h : 0 ∈ p) :
    str_into_c_str p = .error .INVAL ∧
    string_into_c_str p = .error .INVAL ∧
    u8_slice_into_c_str p = .error .INVAL ∧
    vec_u8_into_c_str p = .error .INVAL ∧
    str_as_cow_c_str p = .error .INVAL ∧
    u8_slice_as_cow_c_str p = .error .INVAL ∧
    with_c_str p f = .error .INVAL ∧
    with_c_str_slow_path p f = .error .INVAL ∧
    str_into_with_c_str p f = .error .INVAL ∧
    u8_slice_into_with_c_str p f = .error .INVAL := by
  have hw := with_c_str_spec p f
  have hs := with_c_str_slow_path_spec p f
  simp only [str_into_c_str, string_into_c_str, u8_slice_into_c_str,
    vec_u8_into_c_str, str_as_cow_c_str, u8_slice_as_cow_c_str,
    str_into_with_c_str, u8_slice_into_with_c_str, cstring_new,
    hw, hs, if_pos h, and_self]

/-- Witness for C1 at the concrete input `"a\x00b"` with a continuation that
would succeed if it were ever invoked. -/
theorem C1_interior_nul_yields_inval_witness :
    str_into_c_str [97, 0, 98] = .error .INVAL ∧
    with_c_str [97, 0, 98] (fun c => (.ok c.length : IoResult Nat))
      = .error .INVAL := by
  have h := C1_interior_nul_yields_inval (T := Nat) [97, 0, 98]
    (fun c => .ok c.length) (by decide)
  exact ⟨h.1, h.2.2.2.2.2.2.1⟩

/-- C2: for every NUL-free logical path, `into_c_str` yields the same
(NUL-free) byte content — and hence the same null-terminated C string — from
every supported representation: `&str`, `String`, `&[u8]`, `Vec<u8>`, `&CStr`,
`CString`, `&OsStr`, `OsString`, `&Path`, `PathBuf`, and the `Cow` variants
(whichever arm the `Cow` is in). -/
theorem C2_into_c_str_representation_independent (p : List Nat) (h : 0 ∉ p) :
    str_into_c_str p = .ok p ∧
    string_into_c_str p = .ok p ∧
    u8_slice_into_c_str p = .ok p ∧
    vec_u8_into_c_str p = .ok p ∧
    c_str_into_c_str p = .ok p ∧
    c_string_into_c_str p = .ok p ∧
    os_str_into_c_str p = .ok p ∧
    os_string_into_c_str p = .ok p ∧
    path_into_c_str p = .ok p ∧
    path_buf_into_c_str p = .ok p ∧
    (∀ borrowed, cow_str_into_c_str borrowed p = .ok p) ∧
    (∀ borrowed, cow_os_str_into_c_str borrowed p = .ok p) ∧
    cow_c_str_into_c_str p = .ok p := by
  refine ⟨?_, ?_, ?_, ?_, rfl, rfl, ?_, ?_, ?_, ?_, ?_, ?_, rfl⟩ <;>
    first
      | (intro borrowed; cases borrowed <;>
          simp [cow_str_into_c_str, cow_os_str_into_c_str, cstring_new, h])
      | simp [str_into_c_str, string_into_c_str, u8_slice_into_c_str,
          vec_u8_into_c_str, os_str_into_c_str, os_string_into_c_str,
          path_into_c_str, path_buf_into_c_str, cstring_new, h]

/-- Witness for C2 at the concrete path `"/tmp"`. -/
theorem C2_into_c_str_representation_independent_witness :
    str_into_c_str [47, 116, 109, 112] = .ok [47, 116, 109, 112] ∧
    c_str_into_c_str [47, 116, 109, 112] = .ok [47, 116, 109, 112] ∧
    cow_os_str_into_c_str true [47, 116, 109, 112] = .ok [47, 116, 109, 112] := by
  have h := C2_into_c_str_representation_independent [47, 116, 109, 112]
    (by decide)
  exact ⟨h.1, h.2.2.2.2.1, h.2.2.2.2.2.2.2.2.2.2.2.1 true⟩

/-- C3: for every NUL-free input, the inline-buffer fast path and the
heap-allocating slow path of `with_c_str` pass the continuation exactly the
input bytes and return the continuation's result, so the two paths agree on
every input — the fast/slow split at the 256-byte threshold is purely an
optimization. -/
theorem C3_fast_slow_paths_equivalent {T : Type} (bytes : List Nat)
    (f : List Nat → IoResult T) (h : 0 ∉ bytes) :
    with_c_str bytes f = f bytes ∧
    with_c_str_slow_path bytes f = f bytes := by
  rw [with_c_str_spec, with_c_str_slow_path_spec]
  simp [h]

set_option maxRecDepth 4096 in
/-- Witness for C3 at the boundary: inputs of length 255 (fast path),
256 (exactly the threshold, slow path), and 257 (one over, slow path) all
produce the same successful output shape. -/
theorem C3_fast_slow_paths_equivalent_witness :
    with_c_str (List.replicate 255 97) (fun c => (.ok c.length : IoResult Nat))
      = .ok 255 ∧
    with_c_str (List.replicate 256 97) (fun c => (.ok c.length : IoResult Nat))
      = .ok 256 ∧
    with_c_str (List.replicate 257 97) (fun c => (.ok c.length : IoResult Nat))
      = .ok 257 := by
  have h255 := C3_fast_slow_paths_equivalent (List.replicate 255 97)
    (fun c => (.ok c.length : IoResult Nat)) (by simp [List.mem_replicate])
  have h256 := C3_fast_slow_paths_equivalent (List.replicate 256 97)
    (fun c => (.ok c.length : IoResult Nat)) (by simp [List.mem_replicate])
  have h257 := C3_fast_slow_paths_equivalent (List.replicate 257 97)
    (fun c => (.ok c.length : IoResult Nat)) (by simp [List.mem_replicate])
  exact ⟨h255.1.trans (by simp [List.length_replicate]),
    h256.1.trans (by simp [List.length_replicate]),
    h257.1.trans (by simp [List.length_replicate])⟩

/-- Linux procfs always uses inode 1 for its root directory
(`PROC_ROOT_INO` in `src/io/procfs.rs`). -/
def PROC_ROOT_INO : Nat := 1

/-- Modelled from the spec: the `procfs` filesystem-magic constant
`PROC_SUPER_MAGIC`, re-exported from the `fs` module whose source is not
among the provided files; Linux defines it as `0x9fa0`. The theorems below
do not depend on its particular value. -/
def PROC_SUPER_MAGIC : Nat := 0x9fa0

/-- Modelled from the spec: `Mode::IFMT`, the file-type mask used by the
directory-semantics assertions; the `fs` module's source is not among the
provided files. Linux value `0o170000`. -/
def S_IFMT : Nat := 0o170000

/-- Modelled from the spec: `Mode::IFDIR`, the directory file type; Linux
value `0o40000`. -/
def S_IFDIR : Nat := 0o40000

/-- Modelled from the spec: `fs::major`, the Linux device-number major
extraction, whose source is not among the provided files. The theorems below
do not depend on its particular value. -/
def major (dev : Nat) : Nat :=
  ((dev >>> 31 >>> 1) &&& 0xfffff000) ||| ((dev >>> 8) &&& 0xfff)

/-- The fields of `Stat` inspected by the `/proc` trust-chain validation. -/
structure Stat where
  st_dev : Nat
  st_ino : Nat
  st_mode : Nat
  st_nlink : Nat
  st_uid : Nat
  st_gid : Nat
deriving DecidableEq, Repr

/-- The `Kind` enumeration of `src/io/procfs.rs`: which `/proc` entry is
being checked. -/
inductive Kind where
  | proc
  | pid
  | fd
deriving DecidableEq, Repr

/-- The observable environment of one checked `/proc` entry beyond its
`Stat`: the `fstatfs` filesystem magic, and the errno produced by the
`renameat` probe used by `is_mountpoint`. -/
structure ProcEntryEnv where
  f_type : Nat
  renameat_err : Errno
deriving DecidableEq, Repr

/-- The ways the checking code can abort instead of returning: the
`assert_eq!` on directory semantics, the `panic!` in `is_mountpoint` on an
unexpected `renameat` errno, and the `unwrap` of the `proc_stat` option. -/
inductive AbortKind where
  | assertNotDir
  | unexpectedRenameatError
  | unwrapNone
deriving DecidableEq, Repr

/-- Result of a checking function: a value, a typed error, or an abort
(assertion failure / unwrap failure, which in Rust is a process panic). -/
inductive ProcResult (α : Type) where
  | ok (a : α)
  | err (e : Errno)
  | aborted (k : AbortKind)
deriving DecidableEq, Repr

/-- `is_mountpoint` (`src/io/procfs.rs`): maps the `renameat` probe's errno
`XDEV` to `true` and `BUSY` to `false`; any other errno hits the `panic!`,
modelled as `none`. -/
def is_mountpoint (e : Errno) : Option Bool :=
  match e with
  | .XDEV => some true
  | .BUSY => some false
  | _ => none

/-- `check_procfs`: the filesystem magic must be `PROC_SUPER_MAGIC`. -/
def check_procfs (env : ProcEntryEnv) : Except Errno Unit :=
  if env.f_type ≠ PROC_SUPER_MAGIC then .error .NOTSUP else .ok ()

/-- `check_proc_root`: directory-semantics assertion, root inode check,
non-device (major 0) check, and the mount-point requirement. -/
def check_proc_root (env : ProcEntryEnv) (stat : Stat) : ProcResult Unit :=
  if stat.st_mode &&& S_IFMT ≠ S_IFDIR then .aborted .assertNotDir
  else if stat.st_ino ≠ PROC_ROOT_INO then .err .NOTSUP
  else if major stat.st_dev ≠ 0 then .err .NOTSUP
  else
    match is_mountpoint env.renameat_err with
    | none => .aborted .unexpectedRenameatError
    | some false => .err .NOTSUP
    | some true => .ok ()

/-- `check_proc_nonroot`: not linked back to the `/proc` root, and still on
the same device as `/proc` (`proc_stat.unwrap()`). -/
def check_proc_nonroot (stat : Stat) (proc_stat : Option Stat) :
    ProcResult Unit :=
  if stat.st_ino = PROC_ROOT_INO then .err .NOTSUP
  else
    match proc_stat with
    | none => .aborted .unwrapNone
    | some ps => if stat.st_dev ≠ ps.st_dev then .err .NOTSUP else .ok ()

/-- `check_proc_subdir`: directory-semantics assertion, the non-root checks,
and the requirement that the subdirectory is *not* a mount point. -/
def check_proc_subdir (env : ProcEntryEnv) (stat : Stat)
    (proc_stat : Option Stat) : ProcResult Unit :=
  if stat.st_mode &&& S_IFMT ≠ S_IFDIR then .aborted .assertNotDir
  else
    match check_proc_nonroot stat proc_stat with
    | .err e => .err e
    | .aborted k => .aborted k
    | .ok () =>
        match is_mountpoint env.renameat_err with
        | none => .aborted .unexpectedRenameatError
        | some true => .err .NOTSUP
        | some false => .ok ()

/-- `check_proc_entry_with_stat`: filesystem magic, kind-specific anomaly
checks, exact ownership, permission-subset check (`st_mode & 0o777 &
!expected_mode`, where `!expected_mode` is complemented within the low nine
bits), and the link-count shape. -/
def check_proc_entry_with_stat (kind : Kind) (env : ProcEntryEnv)
    (entry_stat : Stat) (proc_stat : Option Stat) (uid gid : Nat) :
    ProcResult Stat :=
  match check_procfs env with
  | .error e => .err e
  | .ok () =>
  match
    (match kind with
     | .proc => check_proc_root env entry_stat
     | .pid | .fd => check_proc_subdir env entry_stat proc_stat) with
  | .err e => .err e
  | .aborted k => .aborted k
  | .ok () =>
    if (entry_stat.st_uid, entry_stat.st_gid) ≠ (uid, gid) then .err .NOTSUP
    else
      if entry_stat.st_mode &&& 0o777 &&&
          (0o777 ^^^ (match kind with | .fd => 0o500 | _ => 0o555)) ≠ 0 then
        .err .NOTSUP
      else
        match kind with
        | .fd =>
            if entry_stat.st_nlink ≠ 2 then .err .NOTSUP else .ok entry_stat
        | .pid | .proc =>
            if entry_stat.st_nlink ≤ 2 then .err .NOTSUP else .ok entry_stat

theorem check_proc_root_cases (env : ProcEntryEnv) (stat : Stat)
    (hmp : env.renameat_err = .XDEV ∨ env.renameat_err = .BUSY) :
    check_proc_root env stat = .ok () ∨
    check_proc_root env stat = .err .NOTSUP ∨
    check_proc_root env stat = .aborted .assertNotDir := by
  unfold check_proc_root is_mountpoint
  rcases hmp with h | h <;> rw [h] <;> (repeat' split) <;> (try simp_all) <;>
    (try tauto) <;> (try omega)

theorem check_proc_nonroot_cases (stat : Stat) (ps : Stat) :
    check_proc_nonroot stat (some ps) = .ok () ∨
    check_proc_nonroot stat (some ps) = .err .NOTSUP := by
  unfold check_proc_nonroot
  (repeat' split) <;> (try simp_all) <;> (try tauto) <;> (try omega)

theorem check_proc_subdir_cases (env : ProcEntryEnv) (stat : Stat)
    (ps : Stat)
    (hmp : env.renameat_err = .XDEV ∨ env.renameat_err = .BUSY) :
    check_proc_subdir env stat (some ps) = .ok () ∨
    check_proc_subdir env stat (some ps) = .err .NOTSUP ∨
    check_proc_subdir env stat (some ps) = .aborted .assertNotDir := by
  unfold check_proc_subdir
  rcases hmp with h | h <;>
    rcases check_proc_nonroot_cases stat ps with hn | hn <;>
      simp only [hn, is_mountpoint, h] <;> (repeat' split) <;>
        (try simp_all) <;> (try tauto) <;> (try omega)

theorem check_procfs_cases (env : ProcEntryEnv) :
    check_procfs env = .ok () ∨ check_procfs env = .error .NOTSUP := by
  unfold check_procfs
  split <;> simp

/-- C4: over every environment the claim quantifies over (arbitrary
filesystem magic, inode, device, mount-point status — i.e. the `renameat`
probe resolving to a status —, ownership, permission bits and link counts),
and with the `proc_stat` argument supplied the way `proc`, `proc_self` and
`proc_self_fd` supply it, a failing trust-chain check yields `NOTSUP`; the
only non-`NOTSUP` failure is the directory-semantics assertion. -/
theorem C4_failing_checks_yield_notsup (kind : Kind) (env : ProcEntryEnv)
    (stat : Stat) (proc_stat : Option Stat) (uid gid : Nat)
    (hmp : env.renameat_err = .XDEV ∨ env.renameat_err = .BUSY)
    (hps : kind = Kind.proc ∨ proc_stat.isSome) :
    check_proc_entry_with_stat kind env stat proc_stat uid gid = .ok stat ∨
    check_proc_entry_with_stat kind env stat proc_stat uid gid
      = .err .NOTSUP ∨
    check_proc_entry_with_stat kind env stat proc_stat uid gid
      = .aborted .assertNotDir := by
  cases kind with
  | proc =>
      have hstep := check_proc_root_cases env stat hmp
      have hfs := check_procfs_cases env
      simp only [check_proc_entry_with_stat]
      rcases hfs with hf | hf <;> rw [hf]
      · rcases hstep with h | h | h <;> rw [h] <;> (repeat' split) <;>
          (try simp_all) <;> (try tauto) <;> (try omega)
      · simp
  | pid =>
      obtain ⟨ps, rfl⟩ : ∃ ps, proc_stat = some ps := by
        rcases hps with hk | hk
        · exact absurd hk (by simp)
        · exact Option.isSome_iff_exists.mp hk
      have hstep := check_proc_subdir_cases env stat ps hmp
      have hfs := check_procfs_cases env
      simp only [check_proc_entry_with_stat]
      rcases hfs with hf | hf <;> rw [hf]
      · rcases hstep with h | h | h <;> rw [h] <;> (repeat' split) <;>
          (try simp_all) <;> (try tauto) <;> (try omega)
      · simp
  | fd =>
      obtain ⟨ps, rfl⟩ : ∃ ps, proc_stat = some ps := by
        rcases hps with hk | hk
        · exact absurd hk (by simp)
        · exact Option.isSome_iff_exists.mp hk
      have hstep := check_proc_subdir_cases env stat ps hmp
      have hfs := check_procfs_cases env
      simp only [check_proc_entry_with_stat]
      rcases hfs with hf | hf <;> rw [hf]
      · rcases hstep with h | h | h <;> rw [h] <;> (repeat' split) <;>
          (try simp_all) <;> (try tauto) <;> (try omega)
      · simp

/-- Witness for C4 at a concrete spoofed environment: correct magic and a
genuine mount point, but root inode 42 instead of 1 — the check reports
`NOTSUP`. -/
theorem C4_failing_checks_yield_notsup_witness :
    check_proc_entry_with_stat Kind.proc ⟨PROC_SUPER_MAGIC, .XDEV⟩
        ⟨0, 42, 0o40555, 3, 0, 0⟩ none 0 0 = .err .NOTSUP := by
  have h := C4_failing_checks_yield_notsup Kind.proc
    ⟨PROC_SUPER_MAGIC, .XDEV⟩ ⟨0, 42, 0o40555, 3, 0, 0⟩ none 0 0
    (Or.inl rfl) (Or.inl rfl)
  rcases h with h | h | h
  · exact absurd h (by decide)
  · exact h
  · exact absurd h (by decide)

/-- C9: with all other checks passing (procfs magic, kind-specific anomaly
checks, link-count shape), the permission check accepts exactly the stats
whose low nine mode bits are a subset of the expected mode (`0o555`, or
`0o500` for the `fd` entry) — i.e. it reports `NOTSUP` exactly when some
permission bit outside the expected mode is set — while ownership must match
the expected uid/gid exactly. -/
theorem C9_permission_subset_ownership_exact (kind : Kind)
    (env : ProcEntryEnv) (stat : Stat) (proc_stat : Option Stat)
    (uid gid : Nat)
    (hmagic : env.f_type = PROC_SUPER_MAGIC)
    (hstep : (match kind with
      | Kind.proc => check_proc_root env stat
      | Kind.pid | Kind.fd => check_proc_subdir env stat proc_stat)
        = .ok ())
    (hnlink : match kind with
      | Kind.fd => stat.st_nlink = 2
      | Kind.pid | Kind.proc => 2 < stat.st_nlink) :
    (stat.st_uid = uid ∧ stat.st_gid = gid →
      (check_proc_entry_with_stat kind env stat proc_stat uid gid
          = .ok stat ↔
        stat.st_mode &&& 0o777 &&&
          (0o777 ^^^ (match kind with | Kind.fd => 0o500 | _ => 0o555))
          = 0) ∧
      (check_proc_entry_with_stat kind env stat proc_stat uid gid
          = .err .NOTSUP ↔
        stat.st_mode &&& 0o777 &&&
          (0o777 ^^^ (match kind with | Kind.fd => 0o500 | _ => 0o555))
          ≠ 0)) ∧
    ((stat.st_uid, stat.st_gid) ≠ (uid, gid) →
      check_proc_entry_with_stat kind env stat proc_stat uid gid
        = .err .NOTSUP) := by
  have hfs : check_procfs env = .ok () := by
    simp [check_procfs, hmagic]
  cases kind with
  | proc =>
      have h2 : check_proc_root env stat = .ok () := hstep
      have h3 : 2 < stat.st_nlink := hnlink
      simp only [check_proc_entry_with_stat, hfs, h2]
      split_ifs <;> (try simp_all) <;> (try tauto) <;> (try omega)
  | pid =>
      have h2 : check_proc_subdir env stat proc_stat = .ok () := hstep
      have h3 : 2 < stat.st_nlink := hnlink
      simp only [check_proc_entry_with_stat, hfs, h2]
      split_ifs <;> (try simp_all) <;> (try tauto) <;> (try omega)
  | fd =>
      have h2 : check_proc_subdir env stat proc_stat = .ok () := hstep
      have h3 : stat.st_nlink = 2 := hnlink
      simp only [check_proc_entry_with_stat, hfs, h2]
      split_ifs <;> (try simp_all) <;> (try tauto) <;> (try omega)

/-- Witness for C9: mode `r-xr-x---` (`0o550`, a strict subset of `0o555`)
on a correctly-shaped `/proc` root is accepted; the same stat owned by uid 7
instead of the expected 0 is rejected with `NOTSUP`. -/
theorem C9_permission_subset_ownership_exact_witness :
    (check_proc_entry_with_stat Kind.proc ⟨PROC_SUPER_MAGIC, .XDEV⟩
        ⟨0, 1, 0o40550, 3, 0, 0⟩ none 0 0
      = .ok ⟨0, 1, 0o40550, 3, 0, 0⟩) ∧
    (check_proc_entry_with_stat Kind.proc ⟨PROC_SUPER_MAGIC, .XDEV⟩
        ⟨0, 1, 0o40550, 3, 7, 0⟩ none 0 0
      = .err .NOTSUP) := by
  have h1 := C9_permission_subset_ownership_exact Kind.proc
    ⟨PROC_SUPER_MAGIC, .XDEV⟩ ⟨0, 1, 0o40550, 3, 0, 0⟩ none 0 0
    rfl (by decide) (by decide)
  have h2 := C9_permission_subset_ownership_exact Kind.proc
    ⟨PROC_SUPER_MAGIC, .XDEV⟩ ⟨0, 1, 0o40550, 3, 7, 0⟩ none 0 0
    rfl (by decide) (by decide)
  exact ⟨((h1.1 ⟨rfl, rfl⟩).1).mpr (by decide), h2.2 (by decide)⟩

/-- `Timespec` (`__kernel_timespec`): seconds and nanoseconds as 64-bit
signed integers. -/
structure Timespec where
  tv_sec : Int
  tv_nsec : Int
deriving DecidableEq, Repr

/-- `Itimerspec`: a timer's interval and current value. -/
structure Itimerspec where
  it_interval : Timespec
  it_value : Timespec
deriving DecidableEq, Repr

/-- The `set` value of `test_timerfd` (`tests/time/timerfd.rs`):
interval 3 s / 4 ns, initial value 5 s / 6 ns. -/
def timerfd_test_set : Itimerspec :=
  { it_interval := { tv_sec := 3, tv_nsec := 4 }
    it_value := { tv_sec := 5, tv_nsec := 6 } }

/-- The assertions of `test_timerfd` (`tests/time/timerfd.rs`, lines 24-29)
about the value `new` read back by `timerfd_gettime`, transcribed literally:
interval equal in both fields, `set.it_value.tv_sec <= new.it_value.tv_sec`,
and `set.it_value.tv_nsec <= new.it_value.tv_nsec ||
set.it_value.tv_sec < new.it_value.tv_sec`. -/
def test_timerfd_assertions (setv new : Itimerspec) : Prop :=
  setv.it_interval.tv_sec = new.it_interval.tv_sec ∧
  setv.it_interval.tv_nsec = new.it_interval.tv_nsec ∧
  setv.it_value.tv_sec ≤ new.it_value.tv_sec ∧
  (setv.it_value.tv_nsec ≤ new.it_value.tv_nsec ∨
    setv.it_value.tv_sec < new.it_value.tv_sec)

/-- Lexicographic order on timespec values: `a` denotes a time no later
than `b`. -/
def timespec_le (a b : Timespec) : Prop :=
  a.tv_sec < b.tv_sec ∨ (a.tv_sec = b.tv_sec ∧ a.tv_nsec ≤ b.tv_nsec)

/-- Modelled from the spec (refinement-comparison target, written from the
claim's words, not from the source): in the preserved scenario the interval
read back equals the interval set and the remaining value read back is less
than or equal to the value that was set. -/
def timerfd_claim_readback_le (setv new : Itimerspec) : Prop :=
  new.it_interval = setv.it_interval ∧ timespec_le new.it_value setv.it_value

/-- Counterexample for C5: the observation interval 3 s / 4 ns and value
7 s / 8 ns passes every assertion of the preserved test, yet its read-back
value is strictly greater than the value that was set — the claim's
"remaining value read back ≤ value set" is the reverse of what the test
requires. -/
theorem C5_counterexample_readback_greater :
    test_timerfd_assertions timerfd_test_set
      { it_interval := { tv_sec := 3, tv_nsec := 4 }
        it_value := { tv_sec := 7, tv_nsec := 8 } } ∧
    ¬ timerfd_claim_readback_le timerfd_test_set
      { it_interval := { tv_sec := 3, tv_nsec := 4 }
        it_value := { tv_sec := 7, tv_nsec := 8 } } := by
  constructor
  · exact ⟨rfl, rfl, by norm_num [timerfd_test_set],
      Or.inl (by norm_num [timerfd_test_set])⟩
  · rintro ⟨-, h | ⟨h, -⟩⟩ <;> simp [timerfd_test_set] at h

/-- C5 (amended): in the preserved scenario, every observation accepted by
the test's assertions has an interval read back exactly equal to the
interval set, and a remaining value read back greater than or equal to the
value that was set. -/
theorem C5_test_interval_exact_value_ge (new : Itimerspec)
    (h : test_timerfd_assertions timerfd_test_set new) :
    new.it_interval = timerfd_test_set.it_interval ∧
    timespec_le timerfd_test_set.it_value new.it_value := by
  obtain ⟨⟨nis, nin⟩, ⟨nvs, nvn⟩⟩ := new
  obtain ⟨h1, h2, h3, h4⟩ := h
  simp only [timerfd_test_set, test_timerfd_assertions, timespec_le] at *
  refine ⟨?_, ?_⟩
  · simp only [Itimerspec.mk.injEq, Timespec.mk.injEq]
    omega
  · omega

/-- Witness for C5's amended theorem at the observation that reads back
exactly what was set. -/
theorem C5_test_interval_exact_value_ge_witness :
    { it_interval := { tv_sec := 3, tv_nsec := 4 }
      it_value := { tv_sec := 5, tv_nsec := 6 } : Itimerspec }.it_interval
        = timerfd_test_set.it_interval ∧
    timespec_le timerfd_test_set.it_value
      { it_interval := { tv_sec := 3, tv_nsec := 4 }
        it_value := { tv_sec := 5, tv_nsec := 6 } : Itimerspec }.it_value :=
  C5_test_interval_exact_value_ge
    { it_interval := { tv_sec := 3, tv_nsec := 4 }
      it_value := { tv_sec := 5, tv_nsec := 6 } }
    ⟨rfl, rfl, by norm_num [timerfd_test_set],
      Or.inl (by norm_num [timerfd_test_set])⟩

/-- `__kernel_old_timespec` on a 32-bit target: seconds and nanoseconds as
32-bit signed `long`s (modelled as `Int` narrowed by checked conversion). -/
structure KernelOldTimespec where
  tv_sec : Int
  tv_nsec : Int
deriving DecidableEq, Repr

/-- Smallest `i32` value, the lower bound of the checked narrowing. -/
def I32_MIN : Int := -2147483648

/-- Largest `i32` value, the upper bound of the checked narrowing. -/
def I32_MAX : Int := 2147483647

/-- `i64::try_into::<i32>()` composed with the call sites'
`.map_err(|_| io::Error::INVAL)`: checked narrowing that reports `INVAL`
instead of wrapping. -/
def try_into_i32 (x : Int) : IoResult Int :=
  if I32_MIN ≤ x ∧ x ≤ I32_MAX then .ok x else .error .INVAL

/-- The `ClockId` argument of `clock_nanosleep`. -/
inductive ClockId where
  | realtime
  | monotonic
deriving DecidableEq, Repr

/-- `NanosleepRelativeResult`: completed, interrupted with remaining time,
or failed. -/
inductive NanosleepRelativeResult where
  | ok
  | interrupted (rem : Timespec)
  | err (e : Errno)
deriving DecidableEq, Repr

/-- Observable kernel behavior of the sleep syscalls on a 32-bit target:
each syscall yields a result and the remaining-time out-parameter value it
wrote. -/
structure SleepSyscalls where
  clock_nanosleep_time64 : ClockId → Timespec → IoResult Unit × Timespec
  nanosleep_old : KernelOldTimespec → IoResult Unit × KernelOldTimespec
  clock_nanosleep_old :
    ClockId → KernelOldTimespec → IoResult Unit × KernelOldTimespec

/-- `old_rem.into()`: widening the narrow remaining time back into the
unified 64-bit timespec type. -/
def widen_old_timespec (r : KernelOldTimespec) : Timespec :=
  { tv_sec := r.tv_sec, tv_nsec := r.tv_nsec }

/-- The final `match` of `nanosleep`/`clock_nanosleep_relative`
(`src/imp/linux_raw/syscalls.rs`): `Ok` becomes `Ok`, `Err(INTR)` becomes
`Interrupted(rem)`, any other error is propagated. -/
def nanosleep_result_of : IoResult Unit × Timespec → NanosleepRelativeResult
  | (.ok _, _) => .ok
  | (.error .INTR, rem) => .interrupted rem
  | (.error e, _) => .err e

/-- The `ret(syscall4(clock_nanosleep_time64, ...)).or_else(...)` body of
`nanosleep` on a 32-bit target: on `NOSYS`, narrow the request with checked
conversions (`INVAL` on overflow), issue the old `nanosleep` syscall, and
overwrite `rem` with the widened narrow remaining time. -/
def nanosleep_combined (k : SleepSyscalls) (req : Timespec) :
    IoResult Unit × Timespec :=
  match k.clock_nanosleep_time64 .realtime req with
  | (.ok u, rem) => (.ok u, rem)
  | (.error e, rem) =>
    if e = .NOSYS then
      match try_into_i32 req.tv_sec, try_into_i32 req.tv_nsec with
      | .ok s, .ok n =>
          match k.nanosleep_old { tv_sec := s, tv_nsec := n } with
          | (res, old_rem) => (res, widen_old_timespec old_rem)
      | .error e2, _ => (.error e2, rem)
      | .ok _, .error e2 => (.error e2, rem)
    else (.error e, rem)

/-- `nanosleep` (`src/imp/linux_raw/syscalls.rs`, 32-bit branch). -/
def nanosleep (k : SleepSyscalls) (req : Timespec) : NanosleepRelativeResult :=
  nanosleep_result_of (nanosleep_combined k req)

/-- The corresponding `or_else` body of `clock_nanosleep_relative`: same
fallback against the old `clock_nanosleep` syscall with the given clock id. -/
def clock_nanosleep_relative_combined (k : SleepSyscalls) (id : ClockId)
    (req : Timespec) : IoResult Unit × Timespec :=
  match k.clock_nanosleep_time64 id req with
  | (.ok u, rem) => (.ok u, rem)
  | (.error e, rem) =>
    if e = .NOSYS then
      match try_into_i32 req.tv_sec, try_into_i32 req.tv_nsec with
      | .ok s, .ok n =>
          match k.clock_nanosleep_old id { tv_sec := s, tv_nsec := n } with
          | (res, old_rem) => (res, widen_old_timespec old_rem)
      | .error e2, _ => (.error e2, rem)
      | .ok _, .error e2 => (.error e2, rem)
    else (.error e, rem)

/-- `clock_nanosleep_relative` (`src/imp/linux_raw/syscalls.rs`, 32-bit
branch). -/
def clock_nanosleep_relative (k : SleepSyscalls) (id : ClockId)
    (req : Timespec) : NanosleepRelativeResult :=
  nanosleep_result_of (clock_nanosleep_relative_combined k id req)

/-- C6: on a 32-bit target, when `clock_nanosleep_time64` reports `NOSYS`,
both `nanosleep` and `clock_nanosleep_relative` fall back to the narrow
syscall: a request outside the 32-bit range yields `INVAL` (no wrap), and an
in-range request is passed numerically unchanged to the old syscall, whose
narrow remaining time is widened back into the 64-bit timespec in the
`Interrupted` result. -/
theorem C6_nosys_fallback_narrow_checked (k : SleepSyscalls) (id : ClockId)
    (req : Timespec)
    (h1 : (k.clock_nanosleep_time64 .realtime req).1 = .error .NOSYS)
    (h2 : (k.clock_nanosleep_time64 id req).1 = .error .NOSYS) :
    (¬ (I32_MIN ≤ req.tv_sec ∧ req.tv_sec ≤ I32_MAX) ∨
     ¬ (I32_MIN ≤ req.tv_nsec ∧ req.tv_nsec ≤ I32_MAX) →
      nanosleep k req = .err .INVAL ∧
      clock_nanosleep_relative k id req = .err .INVAL) ∧
    ((I32_MIN ≤ req.tv_sec ∧ req.tv_sec ≤ I32_MAX) →
     (I32_MIN ≤ req.tv_nsec ∧ req.tv_nsec ≤ I32_MAX) →
      nanosleep k req =
        nanosleep_result_of
          ((k.nanosleep_old { tv_sec := req.tv_sec, tv_nsec := req.tv_nsec }).1,
           widen_old_timespec
             (k.nanosleep_old
               { tv_sec := req.tv_sec, tv_nsec := req.tv_nsec }).2) ∧
      clock_nanosleep_relative k id req =
        nanosleep_result_of
          ((k.clock_nanosleep_old id
              { tv_sec := req.tv_sec, tv_nsec := req.tv_nsec }).1,
           widen_old_timespec
             (k.clock_nanosleep_old id
               { tv_sec := req.tv_sec, tv_nsec := req.tv_nsec }).2)) := by
  rcases hp : k.clock_nanosleep_time64 .realtime req with ⟨res1, rem1⟩
  rcases hq : k.clock_nanosleep_time64 id req with ⟨res2, rem2⟩
  rw [hp] at h1
  rw [hq] at h2
  simp only at h1 h2
  subst h1 h2
  constructor
  · intro hover
    have hfail : ¬ ((I32_MIN ≤ req.tv_sec ∧ req.tv_sec ≤ I32_MAX) ∧
        (I32_MIN ≤ req.tv_nsec ∧ req.tv_nsec ≤ I32_MAX)) := by tauto
    unfold nanosleep clock_nanosleep_relative nanosleep_combined
      clock_nanosleep_relative_combined
    rw [hp, hq]
    unfold try_into_i32
    rcases hover with ho | ho <;>
      by_cases hsec : I32_MIN ≤ req.tv_sec ∧ req.tv_sec ≤ I32_MAX <;>
      by_cases hnsec : I32_MIN ≤ req.tv_nsec ∧ req.tv_nsec ≤ I32_MAX <;>
      simp [hsec, hnsec, nanosleep_result_of] <;> tauto
  · intro hsec hnsec
    unfold nanosleep clock_nanosleep_relative nanosleep_combined
      clock_nanosleep_relative_combined
    rw [hp, hq]
    unfold try_into_i32
    simp only [hsec, hnsec, and_self, if_true, ite_true, if_pos]

/-- A concrete kernel whose `clock_nanosleep_time64` always reports `NOSYS`,
whose old `nanosleep` reports an interrupt with the request as remaining
time, and whose old `clock_nanosleep` succeeds. -/
def sleep_syscalls_nosys_demo : SleepSyscalls :=
  { clock_nanosleep_time64 :=
      fun _ _ => (.error .NOSYS, { tv_sec := 0, tv_nsec := 0 })
    nanosleep_old := fun r => (.error .INTR, r)
    clock_nanosleep_old := fun _ r => (.ok (), r) }

/-- Witness for C6: under `sleep_syscalls_nosys_demo`, an in-range request
reaches the old syscalls (interrupt widened back, success passed through)
and an out-of-range request yields `INVAL`. -/
theorem C6_nosys_fallback_narrow_checked_witness :
    nanosleep sleep_syscalls_nosys_demo { tv_sec := 1, tv_nsec := 2 }
      = .interrupted { tv_sec := 1, tv_nsec := 2 } ∧
    clock_nanosleep_relative sleep_syscalls_nosys_demo .monotonic
      { tv_sec := 1, tv_nsec := 2 } = .ok ∧
    nanosleep sleep_syscalls_nosys_demo
      { tv_sec := 2147483648, tv_nsec := 0 } = .err .INVAL := by
  have ha := C6_nosys_fallback_narrow_checked sleep_syscalls_nosys_demo
    .monotonic { tv_sec := 1, tv_nsec := 2 } rfl rfl
  have hb := C6_nosys_fallback_narrow_checked sleep_syscalls_nosys_demo
    .monotonic { tv_sec := 2147483648, tv_nsec := 0 } rfl rfl
  refine ⟨?_, ?_, ?_⟩
  · exact ((ha.2 (by norm_num [I32_MIN, I32_MAX])
      (by norm_num [I32_MIN, I32_MAX])).1).trans rfl
  · exact ((ha.2 (by norm_num [I32_MIN, I32_MAX])
      (by norm_num [I32_MIN, I32_MAX])).2).trans rfl
  · exact (hb.1 (Or.inl (by norm_num [I32_MIN, I32_MAX]))).1

/-- `AT_EACCESS` from `linux_raw_sys::v5_11::general` (the external kernel
ABI crate); Linux value `0x200`. The theorems below depend only on equality
versus inequality with this flag. -/
def AT_EACCESS : Nat := 0x200

/-- `accessat` (`src/imp/linux_raw/syscalls.rs`): dispatches on `flags` and
the real-versus-effective id comparison. The embedding returns the
`io::Result` together with the list of mode arguments passed to the
`faccessat` syscall (`_accessat`), so "no syscall issued" is the empty
list. -/
def accessat (faccessat_sys : Nat → IoResult Unit) (flags : Nat)
    (uid euid gid egid : Nat) (access : Nat) : IoResult Unit × List Nat :=
  if flags = 0 ∨ (flags = AT_EACCESS ∧ uid = euid ∧ gid = egid) then
    (faccessat_sys access, [access])
  else if flags ≠ AT_EACCESS then
    (.error .INVAL, [])
  else
    (.error .NOSYS, [])

/-- C7: `accessat` issues the `faccessat` syscall exactly when `flags` is
empty or `flags = AT_EACCESS` with real ids equal to effective ids; with
`flags = AT_EACCESS` and differing ids it returns `NOSYS` without issuing
the access syscall; with any other non-empty `flags` it returns `INVAL`
without issuing the access syscall. -/
theorem C7_accessat_dispatch (sys : Nat → IoResult Unit)
    (flags uid euid gid egid access : Nat) :
    (flags = 0 ∨ (flags = AT_EACCESS ∧ uid = euid ∧ gid = egid) →
      accessat sys flags uid euid gid egid access = (sys access, [access])) ∧
    (flags = AT_EACCESS → ¬ (uid = euid ∧ gid = egid) →
      accessat sys flags uid euid gid egid access = (.error .NOSYS, [])) ∧
    (flags ≠ 0 → flags ≠ AT_EACCESS →
      accessat sys flags uid euid gid egid access = (.error .INVAL, [])) := by
  unfold accessat
  refine ⟨fun h => ?_, fun h hne => ?_, fun h0 hA => ?_⟩
  · rw [if_pos h]
  · have hnc : ¬ (flags = 0 ∨ (flags = AT_EACCESS ∧ uid = euid ∧ gid = egid)) := by
      subst h
      simp only [AT_EACCESS]
      push_neg
      exact ⟨by norm_num, fun _ hu hg => hne ⟨hu, hg⟩⟩
    rw [if_neg hnc, if_neg (by simp [h])]
  · have hnc : ¬ (flags = 0 ∨ (flags = AT_EACCESS ∧ uid = euid ∧ gid = egid)) := by
      rintro (rfl | ⟨rfl, -⟩)
      · exact h0 rfl
      · exact hA rfl
    rw [if_neg hnc, if_pos hA]

/-- A concrete always-succeeding `faccessat` syscall, for the witness. -/
def faccessat_demo : Nat → IoResult Unit := fun _ => .ok ()

/-- Witness for C7 at the three concrete dispatch cases: empty flags,
`AT_EACCESS` with differing uids, and the unsupported flag `0x100`. -/
theorem C7_accessat_dispatch_witness :
    accessat faccessat_demo 0 1 1 1 1 4 = (.ok (), [4]) ∧
    accessat faccessat_demo AT_EACCESS 1 2 1 1 4 = (.error .NOSYS, []) ∧
    accessat faccessat_demo 0x100 1 1 1 1 4 = (.error .INVAL, []) := by
  have h1 := (C7_accessat_dispatch faccessat_demo 0 1 1 1 1 4).1 (Or.inl rfl)
  have h2 := (C7_accessat_dispatch faccessat_demo AT_EACCESS 1 2 1 1 4).2.1
    rfl (by decide)
  have h3 := (C7_accessat_dispatch faccessat_demo 0x100 1 1 1 1 4).2.2
    (by decide) (by decide)
  exact ⟨h1.trans rfl, h2, h3⟩

/-- The Linux `sockaddr_un::sun_path` capacity: 108 bytes
(`src/imp/libc/net/addr.rs`, non-BSD branch). -/
def sun_path_len : Nat := 108

/-- `SocketAddrUnix::_new` (`src/imp/libc/net/addr.rs`): rejects a path
whose bytes plus NUL terminator exceed the `sun_path` capacity, otherwise
stores the path unchanged. -/
def SocketAddrUnix_new_checked (path : List Nat) : IoResult (List Nat) :=
  if path.length + 1 > sun_path_len then .error .NAMETOOLONG else .ok path

/-- `SocketAddrUnix::new` (`src/imp/libc/net/addr.rs`):
`path.into_c_str()?.into_owned()` followed by `Self::_new(path)`. -/
def SocketAddrUnix_new (path : List Nat) : IoResult (List Nat) :=
  match u8_slice_into_c_str path with
  | .error e => .error e
  | .ok c => SocketAddrUnix_new_checked c

/-- Counterexample for C8: 109 NUL bytes exceed the capacity
(109 + 1 > 108), yet `SocketAddrUnix::new` returns `INVAL`, not
`NAMETOOLONG` — the interior-NUL check runs first, so "`NAMETOOLONG`
exactly when the length plus terminator exceeds the capacity" fails. -/
theorem C8_counterexample_nul_and_too_long :
    SocketAddrUnix_new (List.replicate 109 0) = .error .INVAL ∧
    (List.replicate 109 (0 : Nat)).length + 1 > sun_path_len ∧
    SocketAddrUnix_new (List.replicate 109 0) ≠ .error .NAMETOOLONG := by
  have h : SocketAddrUnix_new (List.replicate 109 0) = .error .INVAL := by
    simp [SocketAddrUnix_new, u8_slice_into_c_str, cstring_new,
      List.mem_replicate]
  exact ⟨h, by simp [sun_path_len], by rw [h]; simp⟩

/-- C8 (amended): `SocketAddrUnix::new` validates before any kernel call:
a path containing a NUL yields `INVAL` (this check runs first); a NUL-free
path yields `NAMETOOLONG` exactly when its byte length plus the NUL
terminator exceeds the 108-byte `sun_path` capacity; and otherwise it
succeeds, preserving the path bytes. -/
theorem C8_new_validates_nul_then_length (path : List Nat) :
    (0 ∈ path → SocketAddrUnix_new path = .error .INVAL) ∧
    (0 ∉ path →
      (SocketAddrUnix_new path = .error .NAMETOOLONG ↔
        path.length + 1 > sun_path_len)) ∧
    (0 ∉ path → path.length + 1 ≤ sun_path_len →
      SocketAddrUnix_new path = .ok path) := by
  unfold SocketAddrUnix_new u8_slice_into_c_str cstring_new
    SocketAddrUnix_new_checked
  by_cases h : 0 ∈ path
  · simp [h]
  · by_cases hl : path.length + 1 > sun_path_len <;> simp [h, hl] <;> omega

/-- Witness for C8's amended theorem: a NUL path is `INVAL`, a NUL-free
108-byte path is `NAMETOOLONG`, and `"/s"` is accepted unchanged. -/
theorem C8_new_validates_nul_then_length_witness :
    SocketAddrUnix_new [0] = .error .INVAL ∧
    SocketAddrUnix_new (List.replicate 108 97) = .error .NAMETOOLONG ∧
    SocketAddrUnix_new [47, 115] = .ok [47, 115] := by
  have h1 := (C8_new_validates_nul_then_length [0]).1 (by decide)
  have h2 := ((C8_new_validates_nul_then_length (List.replicate 108 97)).2.1
    (by simp [List.mem_replicate])).mpr
    (by simp [sun_path_len, List.length_replicate])
  have h3 := (C8_new_validates_nul_then_length [47, 115]).2.2 (by decide)
    (by simp [sun_path_len])
  exact ⟨h1, h2, h3⟩

/-- `u32::from_ne_bytes([a, b, c, d])`; native byte order modelled as
little-endian (the round-trip theorems hold for either byte order). -/
def u32_from_ne_bytes (a b c d : Nat) : Nat :=
  a + 256 * b + 65536 * c + 16777216 * d

/-- `u32::to_ne_bytes` under the same little-endian byte-order model. -/
def u32_to_ne_bytes (x : Nat) : Nat × Nat × Nat × Nat :=
  (x % 256, x / 256 % 256, x / 65536 % 256, x / 16777216 % 256)

/-- `u32::from_be_bytes([a, b, c, d])`. -/
def u32_from_be_bytes (a b c d : Nat) : Nat :=
  d + 256 * c + 65536 * b + 16777216 * a

/-- `u32::swap_bytes`: reassembles the native-order bytes in reverse. -/
def u32_swap_bytes (x : Nat) : Nat :=
  u32_from_ne_bytes (u32_to_ne_bytes x).2.2.2 (u32_to_ne_bytes x).2.2.1
    (u32_to_ne_bytes x).2.1 (u32_to_ne_bytes x).1

/-- `u32::to_be` on a little-endian target: byte swap. -/
def u32_to_be (x : Nat) : Nat :=
  u32_swap_bytes x

/-- `struct in_addr`: the library's `Ipv4Addr` stores the raw `s_addr`
word. -/
structure Ipv4Addr where
  s_addr : Nat
deriving DecidableEq, Repr

/-- `std::net::Ipv4Addr`, represented by its four octets. -/
structure StdIpv4Addr where
  o0 : Nat
  o1 : Nat
  o2 : Nat
  o3 : Nat
deriving DecidableEq, Repr

/-- `Ipv4Addr::new(a, b, c, d)`:
`s_addr = u32::from_ne_bytes([a, b, c, d])`. -/
def Ipv4Addr.new (a b c d : Nat) : Ipv4Addr :=
  { s_addr := u32_from_ne_bytes a b c d }

/-- `Ipv4Addr::octets`: `s_addr.to_ne_bytes()` (already big-endian in
memory). -/
def Ipv4Addr.octets (x : Ipv4Addr) : Nat × Nat × Nat × Nat :=
  u32_to_ne_bytes x.s_addr

/-- `Ipv4Addr::from_std`: `u32::from_be_bytes(std.octets())` stored with
`.to_be()`. -/
def Ipv4Addr.from_std (s : StdIpv4Addr) : Ipv4Addr :=
  { s_addr := u32_to_be (u32_from_be_bytes s.o0 s.o1 s.o2 s.o3) }

/-- `Ipv4Addr::into_std`: `std::net::Ipv4Addr::new` on
`s_addr.to_ne_bytes()`. -/
def Ipv4Addr.into_std (x : Ipv4Addr) : StdIpv4Addr :=
  { o0 := (u32_to_ne_bytes x.s_addr).1
    o1 := (u32_to_ne_bytes x.s_addr).2.1
    o2 := (u32_to_ne_bytes x.s_addr).2.2.1
    o3 := (u32_to_ne_bytes x.s_addr).2.2.2 }

/-- The `as u8` cast. -/
def toU8 (x : Nat) : Nat := x % 256

/-- `u16::from_be_bytes([hi, lo])`. -/
def u16_from_be_bytes (hi lo : Nat) : Nat := 256 * hi + lo

/-- `struct in6_addr`: the library's `Ipv6Addr` stores the sixteen
`s6_addr` bytes. -/
structure Ipv6Addr where
  s6_addr : List Nat
deriving DecidableEq, Repr

/-- `Ipv6Addr::new(a, ..., h)`: packs each 16-bit segment big-endian as
`[(x >> 8) as u8, (x & 0xff) as u8]`. -/
def Ipv6Addr.new (a b c d e f g h : Nat) : Ipv6Addr :=
  { s6_addr :=
      [toU8 (a >>> 8), toU8 (a &&& 0xff),
       toU8 (b >>> 8), toU8 (b &&& 0xff),
       toU8 (c >>> 8), toU8 (c &&& 0xff),
       toU8 (d >>> 8), toU8 (d &&& 0xff),
       toU8 (e >>> 8), toU8 (e &&& 0xff),
       toU8 (f >>> 8), toU8 (f &&& 0xff),
       toU8 (g >>> 8), toU8 (g &&& 0xff),
       toU8 (h >>> 8), toU8 (h &&& 0xff)] }

/-- `Ipv6Addr::segments`: eight `u16::from_be_bytes` reads of consecutive
`s6_addr` byte pairs. -/
def Ipv6Addr.segments (x : Ipv6Addr) : List Nat :=
  [u16_from_be_bytes (x.s6_addr.getD 0 0) (x.s6_addr.getD 1 0),
   u16_from_be_bytes (x.s6_addr.getD 2 0) (x.s6_addr.getD 3 0),
   u16_from_be_bytes (x.s6_addr.getD 4 0) (x.s6_addr.getD 5 0),
   u16_from_be_bytes (x.s6_addr.getD 6 0) (x.s6_addr.getD 7 0),
   u16_from_be_bytes (x.s6_addr.getD 8 0) (x.s6_addr.getD 9 0),
   u16_from_be_bytes (x.s6_addr.getD 10 0) (x.s6_addr.getD 11 0),
   u16_from_be_bytes (x.s6_addr.getD 12 0) (x.s6_addr.getD 13 0),
   u16_from_be_bytes (x.s6_addr.getD 14 0) (x.s6_addr.getD 15 0)]

theorem u32_to_ne_bytes_of_lt (a b c d : Nat) (ha : a < 256)
    (hb : b < 256) (hc : c < 256) (hd : d < 256) :
    u32_to_ne_bytes (a + 256 * b + 65536 * c + 16777216 * d) = (a, b, c, d) := by
  unfold u32_to_ne_bytes
  simp only [Prod.mk.injEq]
  refine ⟨?_, ?_, ?_, ?_⟩ <;> omega

theorem u16_pack_unpack (a : Nat) (ha : a < 65536) :
    u16_from_be_bytes (toU8 (a >>> 8)) (toU8 (a &&& 0xff)) = a := by
  have h1 : a &&& 255 = a % 256 := Nat.and_pow_two_sub_one_eq_mod a 8
  unfold u16_from_be_bytes toU8
  rw [Nat.shiftRight_eq_div_pow, h1]
  omega

/-- C10: the IP address value types round-trip losslessly: `Ipv4Addr::new`
then `octets` returns the four octets given; `from_std` then `into_std` is
the identity on standard-library IPv4 addresses; `Ipv6Addr::new` then
`segments` returns the eight 16-bit segments given. -/
theorem C10_ip_roundtrips :
    (∀ a b c d : Nat, a < 256 → b < 256 → c < 256 → d < 256 →
      (Ipv4Addr.new a b c d).octets = (a, b, c, d)) ∧
    (∀ s : StdIpv4Addr, s.o0 < 256 → s.o1 < 256 → s.o2 < 256 → s.o3 < 256 →
      (Ipv4Addr.from_std s).into_std = s) ∧
    (∀ a b c d e f g h : Nat, a < 65536 → b < 65536 → c < 65536 →
      d < 65536 → e < 65536 → f < 65536 → g < 65536 → h < 65536 →
      (Ipv6Addr.new a b c d e f g h).segments =
        [a, b, c, d, e, f, g, h]) := by
  refine ⟨?_, ?_, ?_⟩
  · intro a b c d ha hb hc hd
    unfold Ipv4Addr.new Ipv4Addr.octets u32_from_ne_bytes u32_to_ne_bytes
    simp only [Prod.mk.injEq]
    refine ⟨?_, ?_, ?_, ?_⟩ <;> omega
  · intro s h0 h1 h2 h3
    obtain ⟨o0, o1, o2, o3⟩ := s
    simp only at h0 h1 h2 h3
    have hswap : u32_to_ne_bytes (u32_from_be_bytes o0 o1 o2 o3)
        = (o3, o2, o1, o0) :=
      u32_to_ne_bytes_of_lt o3 o2 o1 o0 h3 h2 h1 h0
    have hback : u32_to_ne_bytes (u32_from_ne_bytes o0 o1 o2 o3)
        = (o0, o1, o2, o3) :=
      u32_to_ne_bytes_of_lt o0 o1 o2 o3 h0 h1 h2 h3
    unfold Ipv4Addr.from_std Ipv4Addr.into_std u32_to_be u32_swap_bytes
    simp [hswap, hback]
  · intro a b c d e f g h ha hb hc hd he hf hg hh
    unfold Ipv6Addr.new Ipv6Addr.segments
    simp only [List.getD_cons_zero, List.getD_cons_succ]
    rw [u16_pack_unpack a ha, u16_pack_unpack b hb, u16_pack_unpack c hc,
      u16_pack_unpack d hd, u16_pack_unpack e he, u16_pack_unpack f hf,
      u16_pack_unpack g hg, u16_pack_unpack h hh]

/-- Witness for C10 at the concrete addresses 192.0.2.1 and
2001:db8::8d3:0:0:1. -/
theorem C10_ip_roundtrips_witness :
    (Ipv4Addr.new 192 0 2 1).octets = (192, 0, 2, 1) ∧
    (Ipv4Addr.from_std { o0 := 192, o1 := 0, o2 := 2, o3 := 1 }).into_std
      = { o0 := 192, o1 := 0, o2 := 2, o3 := 1 } ∧
    (Ipv6Addr.new 0x2001 0xdb8 0 0 0x8d3 0 0 1).segments
      = [0x2001, 0xdb8, 0, 0, 0x8d3, 0, 0, 1] := by
  refine ⟨C10_ip_roundtrips.1 192 0 2 1 (by norm_num) (by norm_num)
      (by norm_num) (by norm_num),
    C10_ip_roundtrips.2.1 { o0 := 192, o1 := 0, o2 := 2, o3 := 1 }
      (by norm_num) (by norm_num) (by norm_num) (by norm_num),
    C10_ip_roundtrips.2.2 0x2001 0xdb8 0 0 0x8d3 0 0 1 (by norm_num)
      (by norm_num) (by norm_num) (by norm_num) (by norm_num) (by norm_num)
      (by norm_num) (by norm_num)⟩
